import Mathlib

/-!
# pgmoneta: the "Extra" workflow stage (src/libpgmoneta/wf_extra.c)

A shallow embedding of `extra_execute` and a verification of its step contract.

Modelling conventions.

* A `char*` that may be `NULL` is an `Option`; `int socket` keeps `-1` as "no socket".
* Names, paths and source descriptors are `String`s (`strcmp(a, b) == 0` is `a = b`).
  The accumulator `info_extra` and the fixed-capacity field `backup->extra` are
  modelled at byte level (`List Nat`), because the commit phase distinguishes
  `memset` from `snprintf`.
* A counted array (`users` / `number_of_users`, `extra` / `number_of_extra`) is a
  `List`; the count is its length.
* The external collaborators (authentication, capability query, retrieval,
  persistence, path builders) are parameters.  The ones that perform I/O thread an
  abstract world `W`, so that their outcomes may differ from call to call.
* Every call that matters to the contract is appended to a trace of `Event`s.
  Logging calls and the two `clock_gettime` calls are not recorded.
* The elapsed time is a `double`; its arithmetic is modelled with IEEE 754 binary64
  rounding over the rationals.
-/

namespace Pgmoneta

/-- Bytes of a NUL-terminated C string, terminator excluded. -/
abbrev CStr := List Nat

/-- One entry of `config->common.users`. -/
structure user where
  username : String
  password : String
deriving DecidableEq, Repr

/-- One entry of `config->common.servers`; `number_of_extra` is `extra.length`. -/
structure server where
  name : String
  username : String
  extra : List String
deriving DecidableEq, Repr

/-- The part of `struct main_configuration` read by the stage. -/
structure main_configuration where
  servers : Int → server
  users : List user

/-- The backup record: `extra` is the fixed-capacity byte array `backup->extra`
(its length is `sizeof(backup->extra)`), `rest` stands for all remaining fields. -/
structure backup where
  label : String
  extra : List Nat
  rest : List Nat
deriving DecidableEq, Repr

/-- A result row: `data` is `char** data` (`NULL`, or columns that may be `NULL`). -/
structure tuple where
  data : Option (Nat → Option String)

/-- A query response: `tuples` is the head of the row list (`NULL` when empty). -/
structure query_response where
  tuples : Option tuple

/-- Calls made by `extra_execute`, in program order. -/
inductive Event where
  | get_server_extra_identifier (server : Int) (label : String)
  | memory_init
  | server_authenticate (server : Int) (database username password : String)
      (replication : Bool)
  | ext_is_installed (ssl : Option Nat) (socket : Int)
  | free_query_response
  | receive_extra_files (ssl : Option Nat) (socket : Int) (name source : String)
      (root : Option String)
  | get_server_backup (server : Int)
  | save_info (info_root : Option String) (b : backup)
  | free_root (root : Option String)
  | free_info_root (info_root : Option String)
  | free_info_extra
  | close_ssl (ssl : Option Nat)
  | disconnect (socket : Int)
  | memory_destroy
deriving DecidableEq, Repr

/-- What `pgmoneta_server_authenticate` hands back: its status and the two
out-parameters `ssl` and `socket`. -/
structure auth_result where
  status : Int
  ssl : Option Nat
  socket : Int

/-- The external collaborators of the stage.  `AUTH_SUCCESS` is the constant of
that name, whose definition lies outside this file.  `save_info` is handed the backup
record by pointer; following its contract (`persist(metadataRoot, backupRecord) ->
status`) it reads the record and returns a status. -/
structure Collaborators (W : Type) where
  AUTH_SUCCESS : Int
  get_server_extra_identifier : Int → String → Option String
  get_server_backup : Int → Option String
  server_authenticate : W → Int → String → String → String → Bool → auth_result × W
  ext_is_installed : W → Option Nat → Int → Option query_response × W
  receive_extra_files :
    W → Option Nat → Int → String → String → Option String → Option CStr →
      (Int × Option CStr) × W
  save_info : W → Option String → backup → Int × W

/-- The outcome of one run: returned status, the backup record as left behind,
the calls made, and the world after the run. -/
structure Outcome (W : Type) where
  status : Int
  backup : backup
  trace : List Event
  world : W

/-- Lines 127-135: the scan for the first user whose name equals `username`, from
index `i` on.  `none` is `usr == -1`; `some (usr, u)` gives the index found and the
entry `users[usr]` read at it. -/
def find_user_from (username : String) : List user → Nat → Option (Nat × user)
  | [], _ => none
  | u :: us, i =>
    if username = u.username then some (i, u) else find_user_from username us (i + 1)

/-- The user scan of lines 127-135, started at index 0. -/
def find_user (users : List user) (username : String) : Option (Nat × user) :=
  find_user_from username users 0

/-- Line 151: the condition under which the capability check jumps to `error`. -/
def ext_check_fails (qr : Option query_response) : Bool :=
  match qr with
  | none => true
  | some q =>
    match q.tuples with
    | none => true
    | some t =>
      match t.data with
      | none => true
      | some d =>
        decide (d 0 = none) || decide (d 2 = none) || decide (d 0 ≠ some "pgmoneta_ext")

/-- Lines 159-165: one retrieval call per configured source, in order; the status
of each call is only logged. -/
def receive_loop {W : Type} (c : Collaborators W) (ssl : Option Nat) (socket : Int)
    (name : String) (root : Option String) :
    List String → W → Option CStr → List Event → W × Option CStr × List Event
  | [], w, info_extra, tr => (w, info_extra, tr)
  | src :: rest, w, info_extra, tr =>
    let r := c.receive_extra_files w ssl socket name src root info_extra
    receive_loop c ssl socket name root rest r.2 r.1.2
      (tr ++ [Event.receive_extra_files ssl socket name src root])

/-- Line 187: `memset(field, 0, sizeof(field))`. -/
def memset_zero (field : List Nat) : List Nat :=
  List.replicate field.length 0

/-- Line 191: `snprintf(field, sizeof(field), "%s", s)`: at most `sizeof(field) - 1`
bytes of `s`, then a terminator; the bytes behind the terminator are not touched. -/
def snprintf_s (field : List Nat) (s : CStr) : List Nat :=
  if field.length = 0 then field
  else
    (s.take (min s.length (field.length - 1)) ++ [0]) ++
      field.drop (min s.length (field.length - 1) + 1)

/-- Lines 185-192: the commit of the accumulator into `backup->extra`. -/
def commit_extra (b : backup) (info_extra : Option CStr) : backup :=
  match info_extra with
  | none => ⟨b.label, memset_zero b.extra, b.rest⟩
  | some s => ⟨b.label, snprintf_s b.extra s, b.rest⟩

/-- Lines 210-231: the calls of the `error:` cleanup block. -/
def error_cleanup (root info_root : Option String) (info_extra : Option CStr)
    (ssl : Option Nat) (socket : Int) : List Event :=
  (if root ≠ none then [Event.free_root root] else []) ++
  (if info_root ≠ none then [Event.free_info_root info_root] else []) ++
  (if info_extra ≠ none then [Event.free_info_extra] else []) ++
  (if ssl ≠ none then [Event.close_ssl ssl] else []) ++
  (if socket ≠ -1 then [Event.disconnect socket] else []) ++
  [Event.memory_destroy]

/-- Lines 198-206: the calls of the release sequence on the success path. -/
def success_cleanup (root info_root : Option String) (info_extra : Option CStr)
    (ssl : Option Nat) (socket : Int) : List Event :=
  [Event.free_root root, Event.free_info_root info_root] ++
  (if info_extra ≠ none then [Event.free_info_extra] else []) ++
  [Event.close_ssl ssl, Event.disconnect socket, Event.memory_destroy]

/-- Lines 72-234: `extra_execute`.  `server`, `label` and `b` are the values found in
the context map under `NODE_SERVER_ID`, `NODE_LABEL` and `NODE_BACKUP`. -/
def extra_execute {W : Type} (c : Collaborators W) (config : main_configuration)
    (w : W) (server : Int) (label : String) (b : backup) : Outcome W :=
  let srv := config.servers server
  if srv.extra.length = 0 then
    ⟨0, b, [], w⟩
  else
    let root := c.get_server_extra_identifier server label
    let tr0 := [Event.get_server_extra_identifier server label, Event.memory_init]
    match find_user config.users srv.username with
    | none =>
      ⟨1, b, tr0 ++ error_cleanup root none none none (-1), w⟩
    | some (_, u) =>
      let a := c.server_authenticate w server "postgres" u.username u.password false
      let tr1 := tr0 ++
        [Event.server_authenticate server "postgres" u.username u.password false]
      if a.1.status ≠ c.AUTH_SUCCESS then
        ⟨1, b, tr1 ++ error_cleanup root none none a.1.ssl a.1.socket, a.2⟩
      else
        let q := c.ext_is_installed a.2 a.1.ssl a.1.socket
        let tr2 := tr1 ++ [Event.ext_is_installed a.1.ssl a.1.socket]
        if ext_check_fails q.1 then
          ⟨1, b, tr2 ++ error_cleanup root none none a.1.ssl a.1.socket, q.2⟩
        else
          let l := receive_loop c a.1.ssl a.1.socket srv.name root srv.extra q.2 none
            (tr2 ++ [Event.free_query_response])
          let info_root := c.get_server_backup server
          let b1 := commit_extra b l.2.1
          let s := c.save_info l.1 info_root b1
          let tr3 := l.2.2 ++
            [Event.get_server_backup server, Event.save_info info_root b1]
          if s.1 ≠ 0 then
            ⟨1, b1, tr3 ++ error_cleanup root info_root l.2.1 a.1.ssl a.1.socket, s.2⟩
          else
            ⟨0, b1, tr3 ++ success_cleanup root info_root l.2.1 a.1.ssl a.1.socket, s.2⟩

/-- Recogniser of authentication calls in a trace. -/
def Event.is_auth : Event → Bool
  | Event.server_authenticate _ _ _ _ _ => true
  | _ => false

/-- Recogniser of capability queries in a trace. -/
def Event.is_ext_query : Event → Bool
  | Event.ext_is_installed _ _ => true
  | _ => false

/-- Recogniser of retrieval calls in a trace. -/
def Event.is_receive : Event → Bool
  | Event.receive_extra_files _ _ _ _ _ => true
  | _ => false

/-- Recogniser of persistence calls in a trace. -/
def Event.is_save : Event → Bool
  | Event.save_info _ _ => true
  | _ => false

/-- The capability requirement in the words of the specification: the query returned
a row whose first column equals the marker and whose third column is not null. -/
def capability_present (qr : Option query_response) : Prop :=
  ∃ r t d, qr = some r ∧ r.tuples = some t ∧ t.data = some d ∧
    d 0 = some "pgmoneta_ext" ∧ d 2 ≠ none

/-- The retrieval calls of one run, as trace events, for the sources `srcs`. -/
def receive_events (ssl : Option Nat) (socket : Int) (name : String)
    (root : Option String) (srcs : List String) : List Event :=
  srcs.map (fun src => Event.receive_extra_files ssl socket name src root)

/-- The collaborators `c` with the retrieval call replaced by `recv`. -/
def with_receive {W : Type} (c : Collaborators W)
    (recv : W → Option Nat → Int → String → String → Option String → Option CStr →
      (Int × Option CStr) × W) : Collaborators W :=
  ⟨c.AUTH_SUCCESS, c.get_server_extra_identifier, c.get_server_backup,
    c.server_authenticate, c.ext_is_installed, recv, c.save_info⟩

/-- Line 144, for a run that selected the credential entry `u`: what the
authentication call returns. -/
def run_auth {W : Type} (c : Collaborators W) (w : W) (server : Int) (u : user) :
    auth_result × W :=
  c.server_authenticate w server "postgres" u.username u.password false

/-- Line 150, for a run that selected `u`: what the capability query returns. -/
def run_query {W : Type} (c : Collaborators W) (w : W) (server : Int) (u : user) :
    Option query_response × W :=
  c.ext_is_installed (run_auth c w server u).2 (run_auth c w server u).1.ssl
    (run_auth c w server u).1.socket

/-- Lines 159-165, for a run that selected `u`: the world and the accumulator after
the retrieval loop. -/
def run_loop {W : Type} (c : Collaborators W) (config : main_configuration) (w : W)
    (server : Int) (label : String) (u : user) : W × Option CStr × List Event :=
  receive_loop c (run_auth c w server u).1.ssl (run_auth c w server u).1.socket
    (config.servers server).name (c.get_server_extra_identifier server label)
    (config.servers server).extra (run_query c w server u).2 none []

/-- Line 194, for a run that selected `u`: what the persistence call returns. -/
def run_save {W : Type} (c : Collaborators W) (config : main_configuration) (w : W)
    (server : Int) (label : String) (b : backup) (u : user) : Int × W :=
  c.save_info (run_loop c config w server label u).1 (c.get_server_backup server)
    (commit_extra b (run_loop c config w server label u).2.1)

/-- The calls made before the retrieval loop by a run that passed the capability
check with credential entry `u`. -/
def trace_before_loop {W : Type} (c : Collaborators W) (w : W) (server : Int)
    (label : String) (u : user) : List Event :=
  [Event.get_server_extra_identifier server label, Event.memory_init,
    Event.server_authenticate server "postgres" u.username u.password false,
    Event.ext_is_installed (run_auth c w server u).1.ssl (run_auth c w server u).1.socket,
    Event.free_query_response]

/-- The release calls of a run that reached the commit phase with credential entry
`u`: the `error:` block when persistence failed, the success sequence otherwise. -/
def trace_after_save {W : Type} (c : Collaborators W) (config : main_configuration)
    (w : W) (server : Int) (label : String) (b : backup) (u : user) : List Event :=
  if (run_save c config w server label b u).1 ≠ 0 then
    error_cleanup (c.get_server_extra_identifier server label) (c.get_server_backup server)
      (run_loop c config w server label u).2.1 (run_auth c w server u).1.ssl
      (run_auth c w server u).1.socket
  else
    success_cleanup (c.get_server_extra_identifier server label)
      (c.get_server_backup server) (run_loop c config w server label u).2.1
      (run_auth c w server u).1.ssl (run_auth c w server u).1.socket

/-- The retrieval phase in the words of the specification, written with `List.foldl`
and without reference to `receive_loop`: starting from the state `st` (world and
accumulator), the retrieval call is applied once to each source, in declared order,
each call being handed the world and the accumulator left by the previous one; the
status it returns is dropped. -/
def retrieve_in_order {W : Type} (c : Collaborators W) (ssl : Option Nat) (socket : Int)
    (name : String) (root : Option String) (srcs : List String) (st : W × Option CStr) :
    W × Option CStr :=
  srcs.foldl (fun st src =>
    ((c.receive_extra_files st.1 ssl socket name src root st.2).2,
      (c.receive_extra_files st.1 ssl socket name src root st.2).1.2)) st

/-- The collaborators `c` observed from outside: the world carries, next to the world
of `c`, the list of the source descriptors the retrieval collaborator has been invoked
with, in invocation order.  All outcomes are those of `c`. -/
def logged {W : Type} (c : Collaborators W) : Collaborators (W × List String) :=
  ⟨c.AUTH_SUCCESS, c.get_server_extra_identifier, c.get_server_backup,
    fun wl server db un pw repl =>
      ((c.server_authenticate wl.1 server db un pw repl).1,
        ((c.server_authenticate wl.1 server db un pw repl).2, wl.2)),
    fun wl ssl socket =>
      ((c.ext_is_installed wl.1 ssl socket).1, ((c.ext_is_installed wl.1 ssl socket).2, wl.2)),
    fun wl ssl socket name src root acc =>
      ((c.receive_extra_files wl.1 ssl socket name src root acc).1,
        ((c.receive_extra_files wl.1 ssl socket name src root acc).2, wl.2 ++ [src])),
    fun wl info_root b =>
      ((c.save_info wl.1 info_root b).1, ((c.save_info wl.1 info_root b).2, wl.2))⟩

/-- The C string held by a byte array: the bytes in front of the first NUL. -/
def c_string (field : List Nat) : CStr :=
  field.takeWhile (fun x => decide (x ≠ 0))

/-! ## The elapsed-time diagnostic (lines 173-179)

A finite `double` is the rational number it denotes.  Arithmetic on `double`s is the
exact operation followed by `binary64_round` (IEEE 754 round to nearest, ties to
even); conversions of integers to `double` round in the same way. -/

/-- Rounding of a non-negative value to the nearest integer, ties to even. -/
def round_half_even (x : ℚ) : Nat :=
  if x - (⌊x⌋ : ℚ) < 1 / 2 then ⌊x⌋.toNat
  else if 1 / 2 < x - (⌊x⌋ : ℚ) then ⌊x⌋.toNat + 1
  else if ⌊x⌋.toNat % 2 = 0 then ⌊x⌋.toNat else ⌊x⌋.toNat + 1

/-- Rounding of any value to the nearest integer, ties to even. -/
def round_half_even_int (x : ℚ) : Int :=
  if 0 ≤ x then (round_half_even x : Int) else -(round_half_even (-x) : Int)

/-- The finite values of IEEE 754 binary64: `m * 2 ^ k` with a significand `m` of at
most 53 bits and an exponent `k` between -1074 and 971. -/
def is_binary64 (x : ℚ) : Prop :=
  ∃ (m k : Int), |m| < 2 ^ 53 ∧ -1074 ≤ k ∧ k ≤ 971 ∧ x = (m : ℚ) * (2 : ℚ) ^ k

/-- The exponent of the unit in the last place of binary64 at the magnitude of `x`. -/
def binary64_ulp_exponent (x : ℚ) : Int := max (Int.log 2 |x| - 52) (-1074)

/-- The binary64 value nearest to `x`, ties to even (overflow to infinity is not
represented: the values rounded below stay under 2^31). -/
def binary64_round (x : ℚ) : ℚ :=
  (round_half_even_int (x / (2 : ℚ) ^ binary64_ulp_exponent x) : ℚ) *
    (2 : ℚ) ^ binary64_ulp_exponent x

/-- Conversion of a `double` to an integer type, for a value in range: truncation
toward zero. -/
def c_trunc (x : ℚ) : Int := if 0 ≤ x then ⌊x⌋ else -⌊-x⌋

/-- The cast `(int)x`; `none` when the truncated value does not fit 32 bits (undefined
behaviour in C). -/
def c_int (x : ℚ) : Option Int :=
  if -(2 ^ 31 : ℚ) - 1 < x ∧ x < 2 ^ 31 then some (c_trunc x) else none

/-- The cast `(long)x`; `none` when the truncated value does not fit 64 bits. -/
def c_long (x : ℚ) : Option Int :=
  if -(2 ^ 63 : ℚ) - 1 < x ∧ x < 2 ^ 63 then some (c_trunc x) else none

/-- Lines 174-176: `hours`, `minutes` and `seconds` of the elapsed time `e`.  In
`seconds` the `int` and the `long` are converted to `double`, and the subtraction and
the addition are `double` operations. -/
def elapsed_parts (e : ℚ) : Option (Int × Int × ℚ) :=
  match c_int e, c_long e with
  | some i, some l =>
    some (i.tdiv 3600, (i.tmod 3600).tdiv 60,
      binary64_round (binary64_round ((i.tmod 60 : Int) : ℚ) +
        binary64_round (e - binary64_round (l : ℚ))))
  | _, _ => none

/-- The conversion `%02i` of `sprintf`: decimal digits, padded with zeros on the left to
a width of two. -/
def fmt_02i (n : Int) : List Char :=
  if n < 0 then '-' :: Nat.toDigits 10 n.natAbs
  else if (Nat.toDigits 10 n.natAbs).length < 2 then '0' :: Nat.toDigits 10 n.natAbs
  else Nat.toDigits 10 n.natAbs

/-- The conversion `%.4f` of `sprintf`: the value rounded to four decimals, printed
as integer part, point and four digits. -/
def fmt_4f (x : ℚ) : List Char :=
  (if x < 0 then ['-'] else []) ++
    (Nat.toDigits 10 (round_half_even (|x| * 10000) / 10000) ++
      '.' :: (List.replicate
          (4 - (Nat.toDigits 10 (round_half_even (|x| * 10000) % 10000)).length) '0' ++
        Nat.toDigits 10 (round_half_even (|x| * 10000) % 10000)))

/-- Line 179: `sprintf(elapsed, "%02i:%02i:%.4f", hours, minutes, seconds)`. -/
def elapsed_string (e : ℚ) : Option (List Char) :=
  match elapsed_parts e with
  | some (h, m, s) => some (fmt_02i h ++ ':' :: (fmt_02i m ++ ':' :: fmt_4f s))
  | none => none

/-! ## Concrete inputs used to exercise the statements -/

/-- A credential list with two entries for the same name. -/
def demo_users : List user :=
  [⟨"admin", "a"⟩, ⟨"repl", "secret"⟩, ⟨"repl", "other"⟩]

/-- A server with two extra sources. -/
def demo_server : server := ⟨"primary", "repl", ["/etc/a", "/etc/b"]⟩

/-- A configuration whose every server identifier resolves to `demo_server`. -/
def demo_config : main_configuration := ⟨fun _ => demo_server, demo_users⟩

/-- A configuration whose server has no extra source. -/
def demo_config_no_extra : main_configuration :=
  ⟨fun _ => ⟨"primary", "repl", []⟩, demo_users⟩

/-- A configuration whose server names a user absent from the credential list. -/
def demo_config_no_user : main_configuration :=
  ⟨fun _ => ⟨"primary", "nobody", ["/etc/a"]⟩, demo_users⟩

/-- A backup record whose eight-byte extra field holds the stale string "old". -/
def demo_backup : backup := ⟨"20250101", [111, 108, 100, 0, 0, 0, 0, 0], [7]⟩

/-- A capability row as the extension query returns it when the extension is there. -/
def demo_row : Nat → Option String := fun i =>
  if i = 0 then some "pgmoneta_ext" else if i = 1 then some "0.1.0"
  else if i = 2 then some "0.1.0" else none

/-- A capability row naming another extension. -/
def demo_row_other : Nat → Option String := fun i =>
  if i = 0 then some "pg_stat_statements" else if i = 1 then some "1.10"
  else if i = 2 then some "1.10" else none

/-- Collaborators with scripted outcomes over a world that counts the I/O calls:
authentication returns `auth_status` with session `(some 5, 9)`, the capability
query returns `qr`, each retrieval call answers `recv`, persistence returns
`save_status`. -/
def demo_collab (auth_status : Int) (qr : Option query_response)
    (recv : Option CStr → Int × Option CStr) (save_status : Int) : Collaborators Nat :=
  ⟨0, fun _ label => some ("/extra/" ++ label), fun _ => some "/backup",
    fun w _ _ _ _ _ => (⟨auth_status, some 5, 9⟩, w + 1),
    fun w _ _ => (qr, w + 1),
    fun w _ _ _ _ _ acc => (recv acc, w + 1),
    fun w _ _ => (save_status, w + 1)⟩

/-- A retrieval call that fails and leaves the accumulator alone. -/
def recv_fail : Option CStr → Int × Option CStr := fun acc => (1, acc)

/-- A retrieval call that succeeds and sets the accumulator to the bytes of "new". -/
def recv_new : Option CStr → Int × Option CStr := fun _ => (0, some [110, 101, 119])

/-- A retrieval call that succeeds and leaves a non-null accumulator of length zero
(an allocated, empty string). -/
def recv_empty : Option CStr → Int × Option CStr := fun _ => (0, some [])

/-! ## Auxiliary lemmas -/

theorem find_user_from_none (username : String) (users : List user) (i : Nat) :
    find_user_from username users i = none ↔ ∀ u ∈ users, u.username ≠ username := by
  induction users generalizing i with
  | nil => simp [find_user_from]
  | cons u us ih =>
    by_cases h : username = u.username
    · simp [find_user_from, h]
    · have h2 : ¬ u.username = username := fun e => h e.symm
      simp [find_user_from, h, h2, ih]

theorem find_user_from_some (username : String) (users : List user) (i k : Nat) (u : user)
    (h : find_user_from username users i = some (k, u)) :
    i ≤ k ∧ users[k - i]? = some u ∧ u.username = username ∧
      ∀ j, j < k - i → ∀ v, users[j]? = some v → v.username ≠ username := by
  induction users generalizing i with
  | nil => simp [find_user_from] at h
  | cons x xs ih =>
    by_cases hx : username = x.username
    · simp [find_user_from, hx] at h
      obtain ⟨rfl, rfl⟩ := h
      simp [hx]
    · simp [find_user_from, hx] at h
      obtain ⟨h1, h2, h3, h4⟩ := ih (i + 1) h
      have hk : k - i = (k - (i + 1)) + 1 := by omega
      refine ⟨by omega, ?_, h3, ?_⟩
      · rw [hk]; simpa using h2
      · intro j hj v hv
        cases j with
        | zero =>
          simp at hv
          subst hv
          exact fun e => hx e.symm
        | succ j =>
          simp at hv
          exact h4 j (by omega) v hv

theorem ext_check_fails_false_iff (qr : Option query_response) :
    ext_check_fails qr = false ↔ capability_present qr := by
  unfold capability_present
  constructor
  · intro h
    match qr, h with
    | some ⟨some ⟨some d⟩⟩, h =>
      simp [ext_check_fails] at h
      exact ⟨_, _, d, rfl, rfl, rfl, h.2, h.1.2⟩
  · rintro ⟨r, t, d, rfl, h2, h3, h4, h5⟩
    obtain ⟨tp⟩ := r
    obtain ⟨dt⟩ := t
    simp at h2 h3
    subst h2 h3
    simp [ext_check_fails, h4, h5]

theorem receive_loop_trace {W : Type} (c : Collaborators W) (ssl : Option Nat)
    (socket : Int) (name : String) (root : Option String) (srcs : List String) (w : W)
    (acc : Option CStr) (tr : List Event) :
    (receive_loop c ssl socket name root srcs w acc tr).2.2 =
      tr ++ receive_events ssl socket name root srcs := by
  induction srcs generalizing w acc tr with
  | nil => simp [receive_loop, receive_events]
  | cons x xs ih =>
    simp only [receive_loop, ih, receive_events, List.map_cons, List.append_assoc,
      List.singleton_append]

theorem receive_loop_state {W : Type} (c : Collaborators W) (ssl : Option Nat)
    (socket : Int) (name : String) (root : Option String) (srcs : List String) (w : W)
    (acc : Option CStr) (tr tr2 : List Event) :
    (receive_loop c ssl socket name root srcs w acc tr).1 =
        (receive_loop c ssl socket name root srcs w acc tr2).1 ∧
      (receive_loop c ssl socket name root srcs w acc tr).2.1 =
        (receive_loop c ssl socket name root srcs w acc tr2).2.1 := by
  induction srcs generalizing w acc tr tr2 with
  | nil => simp [receive_loop]
  | cons x xs ih => simp only [receive_loop]; exact ih _ _ _ _

/-- The run of a server without extra sources. -/
theorem extra_execute_no_extra {W : Type} (c : Collaborators W)
    (config : main_configuration) (w : W) (server : Int) (label : String) (b : backup)
    (h : (config.servers server).extra = []) :
    extra_execute c config w server label b = ⟨0, b, [], w⟩ := by
  simp [extra_execute, h]

/-- The run in which the user scan finds nothing. -/
theorem extra_execute_no_user {W : Type} (c : Collaborators W)
    (config : main_configuration) (w : W) (server : Int) (label : String) (b : backup)
    (h : (config.servers server).extra ≠ [])
    (hu : find_user config.users (config.servers server).username = none) :
    extra_execute c config w server label b =
      ⟨1, b, [Event.get_server_extra_identifier server label, Event.memory_init] ++
        error_cleanup (c.get_server_extra_identifier server label) none none none (-1),
        w⟩ := by
  simp [extra_execute, h, hu]

/-- The run in which authentication does not return `AUTH_SUCCESS`. -/
theorem extra_execute_auth_failure {W : Type} (c : Collaborators W)
    (config : main_configuration) (w : W) (server : Int) (label : String) (b : backup)
    (k : Nat) (u : user)
    (h : (config.servers server).extra ≠ [])
    (hu : find_user config.users (config.servers server).username = some (k, u))
    (ha : (run_auth c w server u).1.status ≠ c.AUTH_SUCCESS) :
    extra_execute c config w server label b =
      ⟨1, b, [Event.get_server_extra_identifier server label, Event.memory_init,
          Event.server_authenticate server "postgres" u.username u.password false] ++
        error_cleanup (c.get_server_extra_identifier server label) none none
          (run_auth c w server u).1.ssl (run_auth c w server u).1.socket,
        (run_auth c w server u).2⟩ := by
  unfold run_auth at ha
  simp [extra_execute, h, hu, ha, run_auth]

/-- The run in which the capability check fails. -/
theorem extra_execute_capability_failure {W : Type} (c : Collaborators W)
    (config : main_configuration) (w : W) (server : Int) (label : String) (b : backup)
    (k : Nat) (u : user)
    (h : (config.servers server).extra ≠ [])
    (hu : find_user config.users (config.servers server).username = some (k, u))
    (ha : (run_auth c w server u).1.status = c.AUTH_SUCCESS)
    (hq : ext_check_fails (run_query c w server u).1 = true) :
    extra_execute c config w server label b =
      ⟨1, b, [Event.get_server_extra_identifier server label, Event.memory_init,
          Event.server_authenticate server "postgres" u.username u.password false,
          Event.ext_is_installed (run_auth c w server u).1.ssl
            (run_auth c w server u).1.socket] ++
        error_cleanup (c.get_server_extra_identifier server label) none none
          (run_auth c w server u).1.ssl (run_auth c w server u).1.socket,
        (run_query c w server u).2⟩ := by
  unfold run_query run_auth at hq
  unfold run_auth at ha
  simp [extra_execute, h, hu, ha, hq, run_auth, run_query]

/-- The run that reaches the commit phase. -/
theorem extra_execute_commit {W : Type} (c : Collaborators W)
    (config : main_configuration) (w : W) (server : Int) (label : String) (b : backup)
    (k : Nat) (u : user)
    (h : (config.servers server).extra ≠ [])
    (hu : find_user config.users (config.servers server).username = some (k, u))
    (ha : (run_auth c w server u).1.status = c.AUTH_SUCCESS)
    (hq : ext_check_fails (run_query c w server u).1 = false) :
    extra_execute c config w server label b =
      ⟨if (run_save c config w server label b u).1 ≠ 0 then 1 else 0,
        commit_extra b (run_loop c config w server label u).2.1,
        ((trace_before_loop c w server label u ++
          receive_events (run_auth c w server u).1.ssl (run_auth c w server u).1.socket
            (config.servers server).name (c.get_server_extra_identifier server label)
            (config.servers server).extra) ++
          [Event.get_server_backup server,
            Event.save_info (c.get_server_backup server)
              (commit_extra b (run_loop c config w server label u).2.1)]) ++
          trace_after_save c config w server label b u,
        (run_save c config w server label b u).2⟩ := by
  have hs := fun tr => receive_loop_state c (run_auth c w server u).1.ssl
    (run_auth c w server u).1.socket (config.servers server).name
    (c.get_server_extra_identifier server label) (config.servers server).extra
    (run_query c w server u).2 none tr []
  have ht := fun tr => receive_loop_trace c (run_auth c w server u).1.ssl
    (run_auth c w server u).1.socket (config.servers server).name
    (c.get_server_extra_identifier server label) (config.servers server).extra
    (run_query c w server u).2 none tr
  simp only [run_query, run_auth] at hq hs ht ha
  unfold extra_execute
  simp only [List.length_eq_zero, h, if_false, hu, ha, hq, ne_eq, not_true_eq_false,
    Bool.false_eq_true, hs, ht, trace_after_save, run_save, run_loop, run_query, run_auth,
    trace_before_loop]
  split <;> simp

theorem find_user_some_of_mem (username : String) (users : List user)
    (h : ∃ x ∈ users, x.username = username) :
    ∃ k u, find_user users username = some (k, u) := by
  cases hf : find_user users username with
  | none =>
    obtain ⟨x, hx, hxe⟩ := h
    exact absurd hxe ((find_user_from_none username users 0).1 hf x hx)
  | some p => exact ⟨p.1, p.2, rfl⟩

theorem receive_loop_agree {W : Type} (c : Collaborators W)
    (recv : W → Option Nat → Int → String → String → Option String → Option CStr →
      (Int × Option CStr) × W)
    (hr : ∀ w ssl socket name src root acc,
      (recv w ssl socket name src root acc).1.2 =
          (c.receive_extra_files w ssl socket name src root acc).1.2 ∧
        (recv w ssl socket name src root acc).2 =
          (c.receive_extra_files w ssl socket name src root acc).2)
    (ssl : Option Nat) (socket : Int) (name : String) (root : Option String)
    (srcs : List String) (w : W) (acc : Option CStr) (tr : List Event) :
    receive_loop (with_receive c recv) ssl socket name root srcs w acc tr =
      receive_loop c ssl socket name root srcs w acc tr := by
  induction srcs generalizing w acc tr with
  | nil => rfl
  | cons x xs ih =>
    simp only [receive_loop]
    have h1 := hr w ssl socket name x root acc
    simp only [with_receive] at h1 ⊢
    rw [h1.1, h1.2]
    exact ih _ _ _

/-- The returned status in terms of the collaborator outcomes. -/
theorem extra_execute_status_zero_iff {W : Type} (c : Collaborators W)
    (config : main_configuration) (w : W) (server : Int) (label : String) (b : backup)
    (h : (config.servers server).extra ≠ []) :
    ((extra_execute c config w server label b).status = 0 ↔
      ∃ k u, find_user config.users (config.servers server).username = some (k, u) ∧
        (run_auth c w server u).1.status = c.AUTH_SUCCESS ∧
        capability_present (run_query c w server u).1 ∧
        (run_save c config w server label b u).1 = 0) ∧
    ((extra_execute c config w server label b).status = 0 ∨
      (extra_execute c config w server label b).status = 1) := by
  cases hu : find_user config.users (config.servers server).username with
  | none =>
    rw [extra_execute_no_user c config w server label b h hu]
    simp
  | some p =>
    obtain ⟨k, u⟩ := p
    by_cases ha : (run_auth c w server u).1.status = c.AUTH_SUCCESS
    · cases hq : ext_check_fails (run_query c w server u).1 with
      | true =>
        rw [extra_execute_capability_failure c config w server label b k u h hu ha hq]
        have hn : ¬ capability_present (run_query c w server u).1 := by
          rw [← ext_check_fails_false_iff, hq]; simp
        simp only [one_ne_zero, Option.some.injEq, Prod.mk.injEq, false_iff, not_exists,
          not_and, or_true, and_true]
        rintro k2 u2 ⟨-, rfl⟩ - hc
        exact absurd hc hn
      | false =>
        rw [extra_execute_commit c config w server label b k u h hu ha hq]
        have hp := (ext_check_fails_false_iff _).1 hq
        by_cases hsv : (run_save c config w server label b u).1 = 0
        · simp only [hsv, ne_eq, not_true_eq_false, if_false, true_iff, true_or, and_true]
          exact ⟨k, u, rfl, ha, hp, hsv⟩
        · simp only [ne_eq, hsv, not_false_eq_true, if_true, one_ne_zero, false_iff,
            not_exists, not_and, or_true, and_true, Option.some.injEq, Prod.mk.injEq]
          rintro k2 u2 ⟨-, rfl⟩ - - hz
          exact hsv hz
    · rw [extra_execute_auth_failure c config w server label b k u h hu ha]
      simp only [one_ne_zero, Option.some.injEq, Prod.mk.injEq, false_iff, not_exists,
        not_and, or_true, and_true]
      rintro k2 u2 ⟨-, rfl⟩ hh
      exact absurd hh ha

theorem receive_events_filter_receive (ssl : Option Nat) (socket : Int) (name : String)
    (root : Option String) (srcs : List String) :
    (receive_events ssl socket name root srcs).filter Event.is_receive =
      receive_events ssl socket name root srcs := by
  induction srcs with
  | nil => rfl
  | cons x xs ih =>
    simp only [receive_events, List.map_cons] at ih ⊢
    simp [Event.is_receive, ih]

theorem receive_events_filter_other (p : Event → Bool)
    (hp : ∀ ssl socket name src root,
      p (Event.receive_extra_files ssl socket name src root) = false)
    (ssl : Option Nat) (socket : Int) (name : String)
    (root : Option String) (srcs : List String) :
    (receive_events ssl socket name root srcs).filter p = [] := by
  induction srcs with
  | nil => rfl
  | cons x xs ih =>
    simp only [receive_events, List.map_cons] at ih ⊢
    simp [hp, ih]

theorem receive_events_length (ssl : Option Nat) (socket : Int) (name : String)
    (root : Option String) (srcs : List String) :
    (receive_events ssl socket name root srcs).length = srcs.length := by
  simp [receive_events]

theorem error_cleanup_filter (p : Event → Bool)
    (h1 : ∀ r, p (Event.free_root r) = false) (h2 : ∀ r, p (Event.free_info_root r) = false)
    (h3 : p Event.free_info_extra = false) (h4 : ∀ s, p (Event.close_ssl s) = false)
    (h5 : ∀ s, p (Event.disconnect s) = false) (h6 : p Event.memory_destroy = false)
    (root info_root : Option String) (info_extra : Option CStr) (ssl : Option Nat)
    (socket : Int) :
    (error_cleanup root info_root info_extra ssl socket).filter p = [] := by
  unfold error_cleanup
  split_ifs <;> simp [h1, h2, h3, h4, h5, h6]

theorem success_cleanup_filter (p : Event → Bool)
    (h1 : ∀ r, p (Event.free_root r) = false) (h2 : ∀ r, p (Event.free_info_root r) = false)
    (h3 : p Event.free_info_extra = false) (h4 : ∀ s, p (Event.close_ssl s) = false)
    (h5 : ∀ s, p (Event.disconnect s) = false) (h6 : p Event.memory_destroy = false)
    (root info_root : Option String) (info_extra : Option CStr) (ssl : Option Nat)
    (socket : Int) :
    (success_cleanup root info_root info_extra ssl socket).filter p = [] := by
  unfold success_cleanup
  split_ifs <;> simp [h1, h2, h3, h4, h5, h6]

theorem trace_after_save_filter {W : Type} (p : Event → Bool)
    (h1 : ∀ r, p (Event.free_root r) = false) (h2 : ∀ r, p (Event.free_info_root r) = false)
    (h3 : p Event.free_info_extra = false) (h4 : ∀ s, p (Event.close_ssl s) = false)
    (h5 : ∀ s, p (Event.disconnect s) = false) (h6 : p Event.memory_destroy = false)
    (c : Collaborators W) (config : main_configuration) (w : W) (server : Int)
    (label : String) (b : backup) (u : user) :
    (trace_after_save c config w server label b u).filter p = [] := by
  unfold trace_after_save
  split
  · exact error_cleanup_filter p h1 h2 h3 h4 h5 h6 _ _ _ _ _
  · exact success_cleanup_filter p h1 h2 h3 h4 h5 h6 _ _ _ _ _

theorem take_min_length (s : List Nat) (n : Nat) : s.take (min s.length n) = s.take n := by
  rcases Nat.le_total s.length n with hle | hle
  · rw [Nat.min_eq_left hle, List.take_of_length_le hle, List.take_of_length_le (le_refl _)]
  · rw [Nat.min_eq_right hle]

theorem snprintf_s_length (field : List Nat) (s : CStr) :
    (snprintf_s field s).length = field.length := by
  unfold snprintf_s
  split
  · rfl
  · simp only [List.length_append, List.length_take, List.length_drop, List.length_singleton]
    omega

theorem snprintf_s_take (field : List Nat) (s : CStr) (hc : 1 ≤ field.length) :
    (snprintf_s field s).take (min s.length (field.length - 1)) =
      s.take (field.length - 1) := by
  unfold snprintf_s
  rw [if_neg (by omega), List.append_assoc, List.take_append_of_le_length]
  · rw [List.take_take, Nat.min_self, take_min_length]
  · simp [List.length_take]

theorem snprintf_s_terminator (field : List Nat) (s : CStr) (hc : 1 ≤ field.length) :
    (snprintf_s field s)[min s.length (field.length - 1)]? = some 0 := by
  unfold snprintf_s
  rw [if_neg (by omega), List.append_assoc]
  rw [List.getElem?_append_right (by simp [List.length_take])]
  simp [List.length_take]

theorem snprintf_s_drop (field : List Nat) (s : CStr) (hc : 1 ≤ field.length) :
    (snprintf_s field s).drop (min s.length (field.length - 1) + 1) =
      field.drop (min s.length (field.length - 1) + 1) := by
  unfold snprintf_s
  rw [if_neg (by omega)]
  have hl : (List.take (min s.length (field.length - 1)) s ++ [0]).length =
      min s.length (field.length - 1) + 1 := by
    simp [List.length_take]
  rw [← hl, List.drop_left, hl]

theorem c_string_append (a d : List Nat) (ha : 0 ∉ a) : c_string (a ++ 0 :: d) = a := by
  induction a with
  | nil => simp [c_string]
  | cons x xs ih =>
    have hx : x ≠ 0 := fun e => ha (by simp [e])
    have hxs : 0 ∉ xs := fun e => ha (by simp [e])
    have ih2 := ih hxs
    simp only [c_string] at ih2 ⊢
    simp only [List.cons_append, List.takeWhile_cons]
    rw [ih2]
    simp [hx]

theorem snprintf_s_c_string (field : List Nat) (s : CStr) (hc : 1 ≤ field.length)
    (hs : 0 ∉ s) : c_string (snprintf_s field s) = s.take (field.length - 1) := by
  unfold snprintf_s
  rw [if_neg (by omega), List.append_assoc, List.singleton_append, c_string_append]
  · exact take_min_length s _
  · exact fun hm => hs (List.mem_of_mem_take hm)

theorem toDigits_length_pos (n : Nat) : 1 ≤ (Nat.toDigits 10 n).length := by
  unfold Nat.toDigits
  rw [Nat.toDigitsCore]
  split
  · simp
  · rw [Nat.toDigitsCore_lens_eq]
    omega

theorem toDigits_length_le (n e : Nat) (h : n < 10 ^ e) (he : 0 < e) :
    (Nat.toDigits 10 n).length ≤ e :=
  Nat.toDigitsCore_length 10 (by decide) (n + 1) n e h he

theorem fmt_02i_natCast (n : Nat) :
    fmt_02i (n : Int) =
      List.replicate (2 - (Nat.toDigits 10 n).length) '0' ++ Nat.toDigits 10 n := by
  unfold fmt_02i
  have hp := toDigits_length_pos n
  rw [if_neg (by omega)]
  simp only [Int.natAbs_ofNat]
  split
  · have : 2 - (Nat.toDigits 10 n).length = 1 := by omega
    rw [this]; rfl
  · have : 2 - (Nat.toDigits 10 n).length = 0 := by omega
    rw [this]; rfl

theorem round_half_even_error (x : ℚ) (hx : 0 ≤ x) :
    |(round_half_even x : ℚ) - x| ≤ 1 / 2 := by
  have hf : 0 ≤ ⌊x⌋ := Int.floor_nonneg.2 hx
  have hc : ((⌊x⌋.toNat : ℕ) : ℚ) = (⌊x⌋ : ℚ) := by
    have := Int.toNat_of_nonneg hf
    exact_mod_cast congrArg (fun z : Int => (z : ℚ)) this
  have h1 := Int.floor_le x
  have h2 := Int.lt_floor_add_one x
  unfold round_half_even
  split_ifs with a b c
  · rw [hc, abs_le]; constructor <;> linarith
  · push_cast; rw [hc, abs_le]; constructor <;> linarith
  · rw [hc, abs_le]; constructor <;> linarith
  · push_cast; rw [hc, abs_le]; constructor <;> linarith

theorem round_half_even_natCast (n : ℕ) : round_half_even (n : ℚ) = n := by
  unfold round_half_even
  simp

theorem round_half_even_int_intCast (z : ℤ) : round_half_even_int (z : ℚ) = z := by
  unfold round_half_even_int
  rcases Int.le_total 0 z with h | h
  · obtain ⟨n, rfl⟩ := Int.eq_ofNat_of_zero_le h
    have : (0 : ℚ) ≤ ((n : ℤ) : ℚ) := by exact_mod_cast h
    rw [if_pos this]
    have := round_half_even_natCast n
    simp only [Int.cast_natCast]
    rw [this]
  · obtain ⟨n, hn⟩ := Int.eq_ofNat_of_zero_le (neg_nonneg.2 h)
    have hz : z = -(n : ℤ) := by omega
    subst hz
    by_cases h0 : n = 0
    · subst h0; simp [round_half_even]
    · have : ¬ (0 : ℚ) ≤ ((-(n : ℤ) : ℤ) : ℚ) := by
        push_cast
        have : (0 : ℚ) < n := by exact_mod_cast Nat.pos_of_ne_zero h0
        linarith
      rw [if_neg this]
      push_cast
      rw [neg_neg, round_half_even_natCast]

theorem binary64_round_eq_self (x : ℚ) (h : is_binary64 x) : binary64_round x = x := by
  obtain ⟨m, k, hm, hk1, _, rfl⟩ := h
  by_cases h0 : m = 0
  · subst h0
    simp [binary64_round, round_half_even_int, round_half_even]
  · have h2 : (0 : ℚ) < (2 : ℚ) ^ k := zpow_pos (by norm_num) k
    have hx : 0 < |(m : ℚ) * (2 : ℚ) ^ k| := by
      rw [abs_pos]
      exact mul_ne_zero (by exact_mod_cast h0) (ne_of_gt h2)
    have hlt : |(m : ℚ) * (2 : ℚ) ^ k| < ((2 : ℕ) : ℚ) ^ (53 + k) := by
      rw [abs_mul, abs_of_pos h2, zpow_add₀ (by norm_num)]
      have : |(m : ℚ)| < 2 ^ 53 := by exact_mod_cast hm
      push_cast
      have h3 : ((2 : ℚ) ^ (53 : ℤ)) = 2 ^ 53 := by norm_num
      rw [h3]
      exact mul_lt_mul_of_pos_right this h2
    have hlog := (Int.lt_zpow_iff_log_lt (by norm_num) hx).1 hlt
    have hj : binary64_ulp_exponent ((m : ℚ) * (2 : ℚ) ^ k) ≤ k := by
      unfold binary64_ulp_exponent
      exact max_le (by omega) hk1
    obtain ⟨n, hn⟩ := Int.eq_ofNat_of_zero_le (sub_nonneg.2 hj)
    have hk : k = binary64_ulp_exponent ((m : ℚ) * (2 : ℚ) ^ k) + n := by omega
    unfold binary64_round
    generalize binary64_ulp_exponent ((m : ℚ) * (2 : ℚ) ^ k) = j at hk hj hn ⊢
    have hj0 : (0 : ℚ) < (2 : ℚ) ^ j := zpow_pos (by norm_num) j
    have hq : (m : ℚ) * (2 : ℚ) ^ k / (2 : ℚ) ^ j = ((m * 2 ^ n : ℤ) : ℚ) := by
      rw [hk, zpow_add₀ (by norm_num)]
      push_cast
      field_simp
      ring
    rw [hq, round_half_even_int_intCast, hk, zpow_add₀ (by norm_num), zpow_natCast]
    push_cast
    ring



theorem is_binary64_whole_plus_fraction (e : ℚ) (he : is_binary64 e) (a : ℤ)
    (ha0 : 0 ≤ a) (ha : a ≤ ⌊e⌋) (ha2 : a < 2 ^ 53) :
    is_binary64 ((a : ℚ) + (e - (⌊e⌋ : ℚ))) := by
  obtain ⟨m, k, hm, hk1, hk2, rfl⟩ := he
  rcases Int.lt_or_le k 0 with hk | hk
  · obtain ⟨j, hj⟩ := Int.eq_ofNat_of_zero_le (show 0 ≤ -k by omega)
    have hkj : k = -(j : ℤ) := by omega
    have hp : (0 : ℚ) < (2 : ℚ) ^ j := pow_pos (by norm_num) j
    have h2k : (2 : ℚ) ^ k = ((2 : ℚ) ^ j)⁻¹ := by
      rw [hkj, zpow_neg, zpow_natCast]
    refine ⟨(a - ⌊(m : ℚ) * (2 : ℚ) ^ k⌋) * 2 ^ j + m, k, ?_, hk1, hk2, ?_⟩
    · have hfl := Int.floor_le ((m : ℚ) * (2 : ℚ) ^ k)
      have hx0 : (0 : ℚ) ≤ (a : ℚ) + ((m : ℚ) * (2 : ℚ) ^ k - (⌊(m : ℚ) * (2 : ℚ) ^ k⌋ : ℚ)) := by
        have : (0 : ℚ) ≤ (a : ℚ) := by exact_mod_cast ha0
        linarith
      have hge : (0 : ℚ) ≤ (((a - ⌊(m : ℚ) * (2 : ℚ) ^ k⌋) * 2 ^ j + m : ℤ) : ℚ) := by
        have e1 : (((a - ⌊(m : ℚ) * (2 : ℚ) ^ k⌋) * 2 ^ j + m : ℤ) : ℚ) =
            ((a : ℚ) + ((m : ℚ) * (2 : ℚ) ^ k - (⌊(m : ℚ) * (2 : ℚ) ^ k⌋ : ℚ))) * 2 ^ j := by
          rw [h2k]; push_cast; field_simp; ring
        rw [e1]
        exact mul_nonneg hx0 (le_of_lt hp)
      have hge2 : 0 ≤ (a - ⌊(m : ℚ) * (2 : ℚ) ^ k⌋) * 2 ^ j + m := by exact_mod_cast hge
      have hle : (a - ⌊(m : ℚ) * (2 : ℚ) ^ k⌋) * 2 ^ j + m ≤ m := by
        have : (a - ⌊(m : ℚ) * (2 : ℚ) ^ k⌋) * 2 ^ j ≤ 0 :=
          mul_nonpos_of_nonpos_of_nonneg (by omega) (by positivity)
        omega
      have hmlt : m < 2 ^ 53 := lt_of_le_of_lt (le_abs_self m) hm
      rw [abs_of_nonneg hge2]
      omega
    · rw [h2k]; push_cast; field_simp; ring
  · obtain ⟨j, hj⟩ := Int.eq_ofNat_of_zero_le hk
    have hint : (m : ℚ) * (2 : ℚ) ^ k = ((m * 2 ^ j : ℤ) : ℚ) := by
      rw [hj, zpow_natCast]; push_cast; ring
    rw [hint, Int.floor_intCast, sub_self, add_zero]
    refine ⟨a, 0, ?_, by norm_num, by norm_num, by simp⟩
    rw [abs_of_nonneg ha0]
    exact ha2

theorem is_binary64_intCast (a : ℤ) (ha : |a| < 2 ^ 53) : is_binary64 (a : ℚ) :=
  ⟨a, 0, ha, by norm_num, by norm_num, by simp⟩

theorem binary64_round_example :
    binary64_round (37234567 / 10000) = 8187967874340907 / 2199023255552 := by
  have hl : Int.log 2 |(37234567 / 10000 : ℚ)| = 11 := by
    rw [abs_of_nonneg (by norm_num)]
    apply le_antisymm
    · have := (Int.lt_zpow_iff_log_lt (b := 2) (x := 12) (r := (37234567 / 10000 : ℚ))
        (by norm_num) (by norm_num)).1 (by norm_num)
      omega
    · exact (Int.zpow_le_iff_le_log (b := 2) (x := 11) (r := (37234567 / 10000 : ℚ))
        (by norm_num) (by norm_num)).1 (by norm_num)
  have hu : binary64_ulp_exponent (37234567 / 10000) = -41 := by
    unfold binary64_ulp_exponent
    rw [hl]; norm_num
  unfold binary64_round
  rw [hu]
  have hq : (37234567 / 10000 : ℚ) / 2 ^ (-41 : ℤ) = 37234567 / 10000 * 2199023255552 := by
    rw [zpow_neg]; norm_num
  rw [hq]
  have hr : round_half_even_int (37234567 / 10000 * 2199023255552) = 8187967874340907 := by
    unfold round_half_even_int
    rw [if_pos (by norm_num)]
    unfold round_half_even
    norm_num
  rw [hr, zpow_neg]
  norm_num


theorem elapsed_parts_eq (e : ℚ) (hd : is_binary64 e) (h0 : 0 ≤ e) (h1 : ⌊e⌋ < 2 ^ 31) :
    elapsed_parts e = some (((⌊e⌋.toNat / 3600 : ℕ) : Int),
      ((⌊e⌋.toNat % 3600 / 60 : ℕ) : Int),
      ((⌊e⌋.toNat % 60 : ℕ) : ℚ) + (e - (⌊e⌋ : ℚ))) := by
  have hf : 0 ≤ ⌊e⌋ := Int.floor_nonneg.2 h0
  have hn : ((⌊e⌋.toNat : ℕ) : Int) = ⌊e⌋ := Int.toNat_of_nonneg hf
  have hlt : e < 2 ^ 31 := by
    have := Int.floor_lt.1 h1
    exact_mod_cast this
  have ht : c_trunc e = ⌊e⌋ := by simp [c_trunc, h0]
  have hi : c_int e = some ⌊e⌋ := by
    unfold c_int
    rw [ht, if_pos ⟨by linarith [show (0:ℚ) < 2 ^ 31 by norm_num], hlt⟩]
  have hl : c_long e = some ⌊e⌋ := by
    unfold c_long
    rw [ht, if_pos ⟨by linarith [show (0:ℚ) < 2 ^ 63 by norm_num],
      by linarith [show (2:ℚ) ^ 31 < 2 ^ 63 by norm_num]⟩]
  have hmod : (⌊e⌋).tmod 60 = ((⌊e⌋.toNat % 60 : ℕ) : Int) := by
    rw [← hn]
    simp only [Int.toNat_ofNat]
    rfl
  have r1 : binary64_round ((⌊e⌋ : Int) : ℚ) = (⌊e⌋ : ℚ) :=
    binary64_round_eq_self _ (is_binary64_intCast _ (by rw [abs_of_nonneg hf]; omega))
  have r2 : binary64_round (e - (⌊e⌋ : ℚ)) = e - (⌊e⌋ : ℚ) := by
    have := is_binary64_whole_plus_fraction e hd 0 (le_refl 0) hf (by norm_num)
    simp only [Int.cast_zero, zero_add] at this
    exact binary64_round_eq_self _ this
  have r3 : binary64_round (((⌊e⌋.toNat % 60 : ℕ) : Int) : ℚ) =
      ((⌊e⌋.toNat % 60 : ℕ) : ℚ) := by
    rw [binary64_round_eq_self _ (is_binary64_intCast ((⌊e⌋.toNat % 60 : ℕ) : Int)
      (by rw [abs_of_nonneg (by omega)]; omega))]
    exact Int.cast_natCast _
  have r4 : binary64_round (((⌊e⌋.toNat % 60 : ℕ) : ℚ) + (e - (⌊e⌋ : ℚ))) =
      ((⌊e⌋.toNat % 60 : ℕ) : ℚ) + (e - (⌊e⌋ : ℚ)) := by
    have := is_binary64_whole_plus_fraction e hd ((⌊e⌋.toNat % 60 : ℕ) : Int) (by omega)
      (by omega) (by omega)
    simp only [Int.cast_natCast] at this
    exact binary64_round_eq_self _ this
  unfold elapsed_parts
  rw [hi, hl]
  simp only
  rw [hmod, r1, r2, r3, r4, ← hn]
  simp only [Int.toNat_ofNat]
  rfl

theorem is_binary64_example : is_binary64 (8187967874340907 / 2199023255552) :=
  ⟨8187967874340907, -41, by norm_num, by norm_num, by norm_num, by
    rw [zpow_neg]; norm_num⟩

theorem elapsed_string_binary64_example :
    elapsed_string (8187967874340907 / 2199023255552) = some "01:02:3.4567".toList := by
  have hfl : ⌊(8187967874340907 / 2199023255552 : ℚ)⌋ = 3723 := by norm_num
  have h4 := elapsed_parts_eq (8187967874340907 / 2199023255552) is_binary64_example
    (by norm_num) (by rw [hfl]; norm_num)
  rw [hfl] at h4
  have h5 : round_half_even (|(7601363687467 / 2199023255552 : ℚ)| * 10000) = 34567 := by
    rw [abs_of_nonneg (by norm_num)]
    unfold round_half_even
    norm_num
    rfl
  have h6 : (((3723 : Int).toNat % 60 : ℕ) : ℚ) +
      ((8187967874340907 / 2199023255552 : ℚ) - ((3723 : Int) : ℚ)) =
      7601363687467 / 2199023255552 := by
    have : (3723 : Int).toNat = 3723 := rfl
    rw [this]
    norm_num
  rw [h6] at h4
  unfold elapsed_string
  rw [h4]
  simp only [fmt_4f, h5]
  rw [if_neg (by norm_num)]
  decide

theorem receive_loop_eq_retrieve {W : Type} (c : Collaborators W) (ssl : Option Nat)
    (socket : Int) (name : String) (root : Option String) (srcs : List String) (w : W)
    (acc : Option CStr) (tr : List Event) :
    (receive_loop c ssl socket name root srcs w acc tr).1 =
        (retrieve_in_order c ssl socket name root srcs (w, acc)).1 ∧
      (receive_loop c ssl socket name root srcs w acc tr).2.1 =
        (retrieve_in_order c ssl socket name root srcs (w, acc)).2 := by
  induction srcs generalizing w acc tr with
  | nil => simp [receive_loop, retrieve_in_order]
  | cons x xs ih =>
    simp only [receive_loop, retrieve_in_order, List.foldl_cons]
    exact ih _ _ _

theorem receive_loop_logged {W : Type} (c : Collaborators W) (ssl : Option Nat)
    (socket : Int) (name : String) (root : Option String) (srcs : List String)
    (wl : W × List String) (acc : Option CStr) (tr : List Event) :
    (receive_loop (logged c) ssl socket name root srcs wl acc tr).1.2 = wl.2 ++ srcs := by
  induction srcs generalizing wl acc tr with
  | nil => simp [receive_loop]
  | cons x xs ih =>
    simp only [receive_loop]
    rw [ih]
    simp [logged]

/-! ## The claims -/

/-- C1: for a server with at least one extra source, `extra_execute` returns 0 exactly
when (a) some credential entry carries the server's username, (b) authentication (made
with the entry the scan selects) returns `AUTH_SUCCESS`, (c) the capability row has
first column "pgmoneta_ext" and a non-null third column, and (d) the persistence call
returns 0; it returns 1 (non-zero) otherwise.  The status does not depend on the
statuses of the retrieval calls: replacing the retrieval collaborator by one that
differs only in the statuses it returns leaves the returned status unchanged. -/
theorem extra_execute_returns_zero_iff {W : Type} (c : Collaborators W)
    (config : main_configuration) (w : W) (server : Int) (label : String) (b : backup)
    (h : (config.servers server).extra ≠ []) :
    ((extra_execute c config w server label b).status = 0 ↔
      (∃ x ∈ config.users, x.username = (config.servers server).username) ∧
      ∃ k u, find_user config.users (config.servers server).username = some (k, u) ∧
        (run_auth c w server u).1.status = c.AUTH_SUCCESS ∧
        capability_present (run_query c w server u).1 ∧
        (run_save c config w server label b u).1 = 0) ∧
    ((extra_execute c config w server label b).status ≠ 0 →
      (extra_execute c config w server label b).status = 1) ∧
    (∀ recv : W → Option Nat → Int → String → String → Option String → Option CStr →
        (Int × Option CStr) × W,
      (∀ w1 ssl socket name src root acc,
        (recv w1 ssl socket name src root acc).1.2 =
            (c.receive_extra_files w1 ssl socket name src root acc).1.2 ∧
          (recv w1 ssl socket name src root acc).2 =
            (c.receive_extra_files w1 ssl socket name src root acc).2) →
      (extra_execute (with_receive c recv) config w server label b).status =
        (extra_execute c config w server label b).status) := by
  have key := extra_execute_status_zero_iff c config w server label b h
  refine ⟨?_, ?_, ?_⟩
  · rw [key.1]
    constructor
    · rintro ⟨k, u, hu, rest⟩
      have hm := find_user_from_some _ _ 0 k u hu
      exact ⟨⟨u, List.getElem?_mem hm.2.1, hm.2.2.1⟩, k, u, hu, rest⟩
    · rintro ⟨-, r⟩
      exact r
  · intro hne
    exact key.2.resolve_left hne
  · intro recv hr
    have key2 := extra_execute_status_zero_iff (with_receive c recv) config w server label b h
    have hl : ∀ u, run_loop (with_receive c recv) config w server label u =
        run_loop c config w server label u := fun u =>
      receive_loop_agree c recv hr _ _ _ _ _ _ _ _
    have hsv : ∀ u, run_save (with_receive c recv) config w server label b u =
        run_save c config w server label b u := by
      intro u
      unfold run_save
      rw [hl u]
      rfl
    have hiff : (extra_execute (with_receive c recv) config w server label b).status = 0 ↔
        (extra_execute c config w server label b).status = 0 := by
      rw [key.1, key2.1]
      simp only [hsv]
      rfl
    rcases key.2 with h0 | h1
    · rw [h0]; exact hiff.2 h0
    · rw [h1]
      rcases key2.2 with g0 | g1
      · rw [hiff.1 g0] at h1; exact absurd h1 (by decide)
      · exact g1

/-- Witness for C1: with two sources whose retrieval calls both fail, a matching
user, successful authentication, the capability present and persistence returning 0,
the stage returns 0. -/
theorem extra_execute_returns_zero_iff_witness :
    (demo_config.servers 0).extra ≠ [] ∧
    (extra_execute (demo_collab 0 (some ⟨some ⟨some demo_row⟩⟩) recv_fail 0)
      demo_config 0 0 "l1" demo_backup).status = 0 :=
  ⟨by decide,
    (extra_execute_returns_zero_iff (demo_collab 0 (some ⟨some ⟨some demo_row⟩⟩) recv_fail 0)
      demo_config 0 0 "l1" demo_backup (by decide)).1.2
      ⟨⟨⟨"repl", "secret"⟩, by decide, rfl⟩, 1, ⟨"repl", "secret"⟩, by decide, rfl,
        ⟨_, _, _, rfl, rfl, rfl, rfl, by decide⟩, rfl⟩⟩

/-- C8: for a server configured with zero extra sources, `extra_execute` returns 0
without making any call: no authentication, no capability query, no retrieval, no
persistence; the backup record and the world are as on entry, whatever the
credential list contains. -/
theorem extra_execute_zero_sources {W : Type} (c : Collaborators W)
    (config : main_configuration) (w : W) (server : Int) (label : String) (b : backup)
    (h : (config.servers server).extra.length = 0) :
    (extra_execute c config w server label b).status = 0 ∧
    (extra_execute c config w server label b).trace = [] ∧
    (extra_execute c config w server label b).trace.filter Event.is_auth = [] ∧
    (extra_execute c config w server label b).trace.filter Event.is_ext_query = [] ∧
    (extra_execute c config w server label b).trace.filter Event.is_receive = [] ∧
    (extra_execute c config w server label b).trace.filter Event.is_save = [] ∧
    (extra_execute c config w server label b).backup = b ∧
    (extra_execute c config w server label b).world = w := by
  rw [extra_execute_no_extra c config w server label b (List.length_eq_zero.1 h)]
  simp

/-- Witness for C8: a server without extra sources and successful collaborators. -/
theorem extra_execute_zero_sources_witness :
    (demo_config_no_extra.servers 0).extra.length = 0 ∧
    (extra_execute (demo_collab 0 (some ⟨some ⟨some demo_row⟩⟩) recv_new 0)
      demo_config_no_extra 0 0 "l1" demo_backup).trace = [] :=
  ⟨by decide,
    (extra_execute_zero_sources (demo_collab 0 (some ⟨some ⟨some demo_row⟩⟩) recv_new 0)
      demo_config_no_extra 0 0 "l1" demo_backup (by decide)).2.1⟩

/-- C7: for a server with at least one extra source whose username matches no
credential entry, `extra_execute` returns a non-zero status and performs no network
I/O: no authentication call, no capability query, no retrieval call and no
persistence call are made (the world and the backup record are as on entry). -/
theorem extra_execute_missing_user {W : Type} (c : Collaborators W)
    (config : main_configuration) (w : W) (server : Int) (label : String) (b : backup)
    (h : 1 ≤ (config.servers server).extra.length)
    (hn : ∀ x ∈ config.users, x.username ≠ (config.servers server).username) :
    (extra_execute c config w server label b).status ≠ 0 ∧
    (extra_execute c config w server label b).trace.filter Event.is_auth = [] ∧
    (extra_execute c config w server label b).trace.filter Event.is_ext_query = [] ∧
    (extra_execute c config w server label b).trace.filter Event.is_receive = [] ∧
    (extra_execute c config w server label b).trace.filter Event.is_save = [] ∧
    (extra_execute c config w server label b).backup = b ∧
    (extra_execute c config w server label b).world = w := by
  have h1 : (config.servers server).extra ≠ [] := by
    intro e; rw [e] at h; simp at h
  have hu := (find_user_from_none (config.servers server).username config.users 0).2 hn
  rw [extra_execute_no_user c config w server label b h1 hu]
  simp only [ne_eq, one_ne_zero, not_false_eq_true, List.filter_append, true_and, and_true]
  refine ⟨?_, ?_, ?_, ?_⟩ <;>
    simp [error_cleanup_filter, Event.is_auth, Event.is_ext_query, Event.is_receive,
      Event.is_save]

/-- Witness for C7: the server names the user "nobody", absent from the list. -/
theorem extra_execute_missing_user_witness :
    1 ≤ (demo_config_no_user.servers 0).extra.length ∧
    (∀ x ∈ demo_config_no_user.users,
      x.username ≠ (demo_config_no_user.servers 0).username) ∧
    (extra_execute (demo_collab 0 (some ⟨some ⟨some demo_row⟩⟩) recv_new 0)
      demo_config_no_user 0 0 "l1" demo_backup).status ≠ 0 :=
  ⟨by decide, by decide,
    (extra_execute_missing_user (demo_collab 0 (some ⟨some ⟨some demo_row⟩⟩) recv_new 0)
      demo_config_no_user 0 0 "l1" demo_backup (by decide) (by decide)).1⟩

/-- C2: for a server with N ≥ 1 extra sources, when the user scan, authentication and
the capability check succeed, the retrieval collaborator is invoked exactly N times,
once per configured source in declared order, whatever the calls return: an outside
observer of the collaborator records exactly the configured sources, in order, and the
world and the accumulator after the loop are those obtained by applying the call to
each source in turn.  After the last call the commit phase is reached: the extra field
is written (zeroed for a null accumulator, else the accumulator's bytes, a terminator
and the old tail), the other fields are kept, and the persistence call is made exactly
once, after the last retrieval call, on that record and in the world the loop left. -/
theorem extra_execute_retrieves_every_source {W : Type} (c : Collaborators W)
    (config : main_configuration) (w : W) (server : Int) (label : String) (b : backup)
    (k : Nat) (u : user)
    (h : 1 ≤ (config.servers server).extra.length)
    (hu : find_user config.users (config.servers server).username = some (k, u))
    (ha : (run_auth c w server u).1.status = c.AUTH_SUCCESS)
    (hq : capability_present (run_query c w server u).1) :
    (extra_execute c config w server label b).trace.filter Event.is_receive =
      (config.servers server).extra.map (fun src =>
        Event.receive_extra_files (run_auth c w server u).1.ssl
          (run_auth c w server u).1.socket (config.servers server).name src
          (c.get_server_extra_identifier server label)) ∧
    ((extra_execute c config w server label b).trace.filter Event.is_receive).length =
      (config.servers server).extra.length ∧
    (extra_execute c config w server label b).trace.filter Event.is_save =
      [Event.save_info (c.get_server_backup server)
        (commit_extra b (run_loop c config w server label u).2.1)] ∧
    (∃ pre post, (extra_execute c config w server label b).trace =
        (pre ++ (config.servers server).extra.map (fun src =>
          Event.receive_extra_files (run_auth c w server u).1.ssl
            (run_auth c w server u).1.socket (config.servers server).name src
            (c.get_server_extra_identifier server label))) ++
        (Event.get_server_backup server ::
          Event.save_info (c.get_server_backup server)
            (commit_extra b (run_loop c config w server label u).2.1) :: post) ∧
      pre.filter Event.is_receive = [] ∧ pre.filter Event.is_save = [] ∧
      post.filter Event.is_receive = [] ∧ post.filter Event.is_save = []) ∧
    (extra_execute c config w server label b).backup =
      commit_extra b (run_loop c config w server label u).2.1 ∧
    (extra_execute (logged c) config (w, []) server label b).world.2 =
      (config.servers server).extra ∧
    (extra_execute (logged c) config (w, []) server label b).world.2.length =
      (config.servers server).extra.length ∧
    (extra_execute c config w server label b).world =
      (c.save_info
        (retrieve_in_order c (run_auth c w server u).1.ssl (run_auth c w server u).1.socket
          (config.servers server).name (c.get_server_extra_identifier server label)
          (config.servers server).extra ((run_query c w server u).2, none)).1
        (c.get_server_backup server) (extra_execute c config w server label b).backup).2 ∧
    (extra_execute c config w server label b).trace.filter Event.is_save =
      [Event.save_info (c.get_server_backup server)
        (extra_execute c config w server label b).backup] ∧
    (extra_execute c config w server label b).backup.label = b.label ∧
    (extra_execute c config w server label b).backup.rest = b.rest ∧
    (extra_execute c config w server label b).backup.extra =
      (match (retrieve_in_order c (run_auth c w server u).1.ssl
          (run_auth c w server u).1.socket (config.servers server).name
          (c.get_server_extra_identifier server label) (config.servers server).extra
          ((run_query c w server u).2, none)).2 with
        | none => List.replicate b.extra.length 0
        | some s =>
          if b.extra.length = 0 then b.extra
          else s.take (min s.length (b.extra.length - 1)) ++
            0 :: b.extra.drop (min s.length (b.extra.length - 1) + 1)) := by
  have h1 : (config.servers server).extra ≠ [] := by
    intro e; rw [e] at h; simp at h
  have hf := (ext_check_fails_false_iff _).2 hq
  have hlog : (extra_execute (logged c) config (w, []) server label b).world.2 =
      (config.servers server).extra := by
    have hf2 : ext_check_fails (run_query (logged c) (w, []) server u).1 = false := hf
    rw [extra_execute_commit (logged c) config (w, []) server label b k u h1 hu ha hf2]
    show (receive_loop (logged c) _ _ _ _ _ _ _ _).1.2 = _
    rw [receive_loop_logged]
    rfl
  have hret := receive_loop_eq_retrieve c (run_auth c w server u).1.ssl
    (run_auth c w server u).1.socket (config.servers server).name
    (c.get_server_extra_identifier server label) (config.servers server).extra
    (run_query c w server u).2 none []
  have hret1 : (run_loop c config w server label u).1 = _ := hret.1
  have hret2 : (run_loop c config w server label u).2.1 = _ := hret.2
  rw [hlog]
  rw [extra_execute_commit c config w server label b k u h1 hu ha hf]
  have e1 : ∀ p : Event → Bool, (∀ r, p (Event.free_root r) = false) →
      (∀ r, p (Event.free_info_root r) = false) → p Event.free_info_extra = false →
      (∀ s, p (Event.close_ssl s) = false) → (∀ s, p (Event.disconnect s) = false) →
      p Event.memory_destroy = false →
      (trace_after_save c config w server label b u).filter p = [] :=
    fun p a1 a2 a3 a4 a5 a6 => trace_after_save_filter p a1 a2 a3 a4 a5 a6 _ _ _ _ _ _ _
  have r1 := e1 Event.is_receive (fun _ => rfl) (fun _ => rfl) rfl (fun _ => rfl)
    (fun _ => rfl) rfl
  have r2 := e1 Event.is_save (fun _ => rfl) (fun _ => rfl) rfl (fun _ => rfl)
    (fun _ => rfl) rfl
  have r3 := receive_events_filter_receive (run_auth c w server u).1.ssl
    (run_auth c w server u).1.socket (config.servers server).name
    (c.get_server_extra_identifier server label) (config.servers server).extra
  have r4 := receive_events_filter_other Event.is_save (fun _ _ _ _ _ => rfl)
    (run_auth c w server u).1.ssl
    (run_auth c w server u).1.socket (config.servers server).name
    (c.get_server_extra_identifier server label) (config.servers server).extra
  have r5 : (trace_before_loop c w server label u).filter Event.is_receive = [] := rfl
  have r6 : (trace_before_loop c w server label u).filter Event.is_save = [] := rfl
  have r7 : ∀ x, [Event.get_server_backup server,
      Event.save_info (c.get_server_backup server) x].filter Event.is_receive = [] :=
    fun _ => rfl
  have r8 : ∀ x, [Event.get_server_backup server,
      Event.save_info (c.get_server_backup server) x].filter Event.is_save =
      [Event.save_info (c.get_server_backup server) x] := fun _ => rfl
  refine ⟨?_, ?_, ?_, ?_, rfl, rfl, rfl, ?_, ?_, ?_, ?_, ?_⟩
  · simp only [List.filter_append, r1, r3, r5, r7, List.append_nil, List.nil_append]
    rfl
  · simp only [List.filter_append, r1, r3, r5, r7, List.append_nil, List.nil_append]
    exact receive_events_length _ _ _ _ _
  · simp only [List.filter_append, r2, r4, r6, r8, List.append_nil, List.nil_append]
  · refine ⟨trace_before_loop c w server label u,
      trace_after_save c config w server label b u, ?_, r5, r6, r1, r2⟩
    simp [receive_events]
  · show (run_save c config w server label b u).2 = _
    unfold run_save
    rw [hret1]
  · simp only [List.filter_append, r2, r4, r6, r8, List.append_nil, List.nil_append]
  · cases (run_loop c config w server label u).2.1 <;> rfl
  · cases (run_loop c config w server label u).2.1 <;> rfl
  · show (commit_extra b (run_loop c config w server label u).2.1).extra = _
    rw [hret2]
    cases (retrieve_in_order c (run_auth c w server u).1.ssl
      (run_auth c w server u).1.socket (config.servers server).name
      (c.get_server_extra_identifier server label) (config.servers server).extra
      ((run_query c w server u).2, none)).2 with
    | none => rfl
    | some s =>
      simp only [commit_extra, snprintf_s]
      split
      · rfl
      · simp

/-- Witness for C2: two configured sources whose retrieval calls both fail.  The
observer records both sources in order, the persistence call sees the world after four
I/O calls, and the field that held "old" has been written (zeroed). -/
theorem extra_execute_retrieves_every_source_witness :
    1 ≤ (demo_config.servers 0).extra.length ∧
    ((extra_execute (demo_collab 0 (some ⟨some ⟨some demo_row⟩⟩) recv_fail 0)
      demo_config 0 0 "l1" demo_backup).trace.filter Event.is_receive).length = 2 ∧
    (extra_execute (logged (demo_collab 0 (some ⟨some ⟨some demo_row⟩⟩) recv_fail 0))
      demo_config (0, []) 0 "l1" demo_backup).world.2 = ["/etc/a", "/etc/b"] ∧
    (extra_execute (demo_collab 0 (some ⟨some ⟨some demo_row⟩⟩) recv_fail 0)
      demo_config 0 0 "l1" demo_backup).world = 5 ∧
    (extra_execute (demo_collab 0 (some ⟨some ⟨some demo_row⟩⟩) recv_fail 0)
      demo_config 0 0 "l1" demo_backup).backup.extra = [0, 0, 0, 0, 0, 0, 0, 0] :=
  ⟨by decide,
    (extra_execute_retrieves_every_source
      (demo_collab 0 (some ⟨some ⟨some demo_row⟩⟩) recv_fail 0)
      demo_config 0 0 "l1" demo_backup 1 ⟨"repl", "secret"⟩ (by decide) (by decide) rfl
      ⟨_, _, _, rfl, rfl, rfl, rfl, by decide⟩).2.1,
    (extra_execute_retrieves_every_source
      (demo_collab 0 (some ⟨some ⟨some demo_row⟩⟩) recv_fail 0)
      demo_config 0 0 "l1" demo_backup 1 ⟨"repl", "secret"⟩ (by decide) (by decide) rfl
      ⟨_, _, _, rfl, rfl, rfl, rfl, by decide⟩).2.2.2.2.2.1,
    (extra_execute_retrieves_every_source
      (demo_collab 0 (some ⟨some ⟨some demo_row⟩⟩) recv_fail 0)
      demo_config 0 0 "l1" demo_backup 1 ⟨"repl", "secret"⟩ (by decide) (by decide) rfl
      ⟨_, _, _, rfl, rfl, rfl, rfl, by decide⟩).2.2.2.2.2.2.2.1.trans (by decide),
    (extra_execute_retrieves_every_source
      (demo_collab 0 (some ⟨some ⟨some demo_row⟩⟩) recv_fail 0)
      demo_config 0 0 "l1" demo_backup 1 ⟨"repl", "secret"⟩ (by decide) (by decide) rfl
      ⟨_, _, _, rfl, rfl, rfl, rfl, by decide⟩).2.2.2.2.2.2.2.2.2.2.2.trans (by decide)⟩

/-- C4 (as stated, refuted): the retrieval calls leave a non-null accumulator of
length zero.  The accumulator is empty after the loop and the stage reaches the commit
phase (it returns 0), yet the field, which held "old", is not cleared: only its first
byte is zero and the stale bytes "ld" remain behind it. -/
theorem extra_execute_empty_accumulator_keeps_stale_bytes :
    (run_loop (demo_collab 0 (some ⟨some ⟨some demo_row⟩⟩) recv_empty 0) demo_config 0 0
      "l1" ⟨"repl", "secret"⟩).2.1 = some [] ∧
    (extra_execute (demo_collab 0 (some ⟨some ⟨some demo_row⟩⟩) recv_empty 0)
      demo_config 0 0 "l1" demo_backup).status = 0 ∧
    demo_backup.extra = [111, 108, 100, 0, 0, 0, 0, 0] ∧
    (extra_execute (demo_collab 0 (some ⟨some ⟨some demo_row⟩⟩) recv_empty 0)
      demo_config 0 0 "l1" demo_backup).backup.extra = [0, 108, 100, 0, 0, 0, 0, 0] ∧
    ¬ (∀ x ∈ (extra_execute (demo_collab 0 (some ⟨some ⟨some demo_row⟩⟩) recv_empty 0)
      demo_config 0 0 "l1" demo_backup).backup.extra, x = 0) := by
  decide

/-- C4 (amended): when `extra_execute` reaches the commit phase, the label and all
other fields of the backup record are unchanged and the extra field keeps its
capacity; if the accumulator is null after the loop (`info_extra == NULL`), every byte
of the field is zero; for any non-null accumulator, one of length zero included, the
first `min len (capacity - 1)` bytes of the field are those of the accumulator, a
terminator follows and the bytes behind it keep their prior values, so that the field
reads as the accumulator truncated to `capacity - 1` characters, and as the
accumulator itself when it fits; for a non-null accumulator of length zero the field
is its old content with the first byte set to zero. -/
theorem extra_execute_commit_field {W : Type} (c : Collaborators W)
    (config : main_configuration) (w : W) (server : Int) (label : String) (b : backup)
    (k : Nat) (u : user)
    (h : (config.servers server).extra ≠ [])
    (hu : find_user config.users (config.servers server).username = some (k, u))
    (ha : (run_auth c w server u).1.status = c.AUTH_SUCCESS)
    (hq : capability_present (run_query c w server u).1) :
    (extra_execute c config w server label b).backup.label = b.label ∧
    (extra_execute c config w server label b).backup.rest = b.rest ∧
    (extra_execute c config w server label b).backup.extra.length = b.extra.length ∧
    ((run_loop c config w server label u).2.1 = none →
      ∀ x ∈ (extra_execute c config w server label b).backup.extra, x = 0) ∧
    (∀ s, (run_loop c config w server label u).2.1 = some s → 1 ≤ b.extra.length →
      (extra_execute c config w server label b).backup.extra.take
          (min s.length (b.extra.length - 1)) = s.take (b.extra.length - 1) ∧
      (extra_execute c config w server label b).backup.extra[
          min s.length (b.extra.length - 1)]? = some 0 ∧
      (extra_execute c config w server label b).backup.extra.drop
          (min s.length (b.extra.length - 1) + 1) =
        b.extra.drop (min s.length (b.extra.length - 1) + 1) ∧
      (0 ∉ s → c_string (extra_execute c config w server label b).backup.extra =
        s.take (b.extra.length - 1)) ∧
      (0 ∉ s → s.length < b.extra.length →
        c_string (extra_execute c config w server label b).backup.extra = s)) ∧
    ((run_loop c config w server label u).2.1 = some [] → 1 ≤ b.extra.length →
      (extra_execute c config w server label b).backup.extra = 0 :: b.extra.drop 1) := by
  have hf := (ext_check_fails_false_iff _).2 hq
  rw [extra_execute_commit c config w server label b k u h hu ha hf]
  simp only
  cases hacc : (run_loop c config w server label u).2.1 with
  | none =>
    simp [commit_extra, memset_zero]
  | some s0 =>
    simp only [commit_extra, snprintf_s_length, true_and, Option.some.injEq,
      forall_eq_apply_imp_iff, forall_eq, reduceCtorEq, false_implies]
    simp only [forall_eq']
    refine ⟨?_, ?_⟩
    · intro hc
      refine ⟨snprintf_s_take _ _ hc, snprintf_s_terminator _ _ hc, snprintf_s_drop _ _ hc,
        snprintf_s_c_string _ _ hc, ?_⟩
      intro hs hl
      rw [snprintf_s_c_string _ _ hc hs, List.take_of_length_le (by omega)]
    · intro he hc
      subst he
      have hne : ¬ b.extra.length = 0 := by omega
      simp [snprintf_s, hne]

/-- Witness for C4 (amended): the only successful retrieval sets the accumulator to
"new"; the eight-byte field, which held "old", then reads "new". -/
theorem extra_execute_commit_field_witness :
    (demo_config.servers 0).extra ≠ [] ∧
    c_string (extra_execute (demo_collab 0 (some ⟨some ⟨some demo_row⟩⟩) recv_new 0)
      demo_config 0 0 "l1" demo_backup).backup.extra = [110, 101, 119] :=
  ⟨by decide,
    (extra_execute_commit_field
      (demo_collab 0 (some ⟨some ⟨some demo_row⟩⟩) recv_new 0)
      demo_config 0 0 "l1" demo_backup 1 ⟨"repl", "secret"⟩ (by decide) (by decide) rfl
      ⟨_, _, _, rfl, rfl, rfl, rfl, by decide⟩).2.2.2.2.1 [110, 101, 119] rfl (by decide)
      |>.2.2.2.2 (by decide) (by decide)⟩

/-- C9 (the code at the failing input): for a server with at least one extra source
and a matching credential entry, the authentication call is made exactly once, for the
given server identifier and database "postgres", with the username and password of
the first entry in list order whose username equals the server's username; the
replication argument it passes is `false`. -/
theorem extra_execute_session_request {W : Type} (c : Collaborators W)
    (config : main_configuration) (w : W) (server : Int) (label : String) (b : backup)
    (h : (config.servers server).extra ≠ [])
    (hm : ∃ x ∈ config.users, x.username = (config.servers server).username) :
    ∃ (k : Nat) (u : user), config.users[k]? = some u ∧
      u.username = (config.servers server).username ∧
      (∀ j, j < k → ∀ v : user, config.users[j]? = some v →
        v.username ≠ (config.servers server).username) ∧
      (extra_execute c config w server label b).trace.filter Event.is_auth =
        [Event.server_authenticate server "postgres" u.username u.password false] := by
  obtain ⟨k, u, hu⟩ := find_user_some_of_mem _ _ hm
  have hf := find_user_from_some _ _ 0 k u hu
  refine ⟨k, u, hf.2.1, hf.2.2.1, hf.2.2.2, ?_⟩
  have e1 : ∀ r ir ie s so, (error_cleanup r ir ie s so).filter Event.is_auth = [] :=
    error_cleanup_filter Event.is_auth (fun _ => rfl) (fun _ => rfl) rfl (fun _ => rfl)
      (fun _ => rfl) rfl
  by_cases ha : (run_auth c w server u).1.status = c.AUTH_SUCCESS
  · cases hq : ext_check_fails (run_query c w server u).1 with
    | true =>
      rw [extra_execute_capability_failure c config w server label b k u h hu ha hq]
      simp [e1, Event.is_auth]
    | false =>
      rw [extra_execute_commit c config w server label b k u h hu ha hq]
      have r1 := trace_after_save_filter Event.is_auth (fun _ => rfl) (fun _ => rfl) rfl
        (fun _ => rfl) (fun _ => rfl) rfl c config w server label b u
      have r2 := receive_events_filter_other Event.is_auth (fun _ _ _ _ _ => rfl)
        (run_auth c w server u).1.ssl
        (run_auth c w server u).1.socket (config.servers server).name
        (c.get_server_extra_identifier server label) (config.servers server).extra
      simp only [List.filter_append, r1, r2, List.append_nil]
      rfl
  · rw [extra_execute_auth_failure c config w server label b k u h hu ha]
    simp [e1, Event.is_auth]

/-- Witness for C9: two entries carry the server's username; the call is made with the
first of them, and with the replication argument `false`. -/
theorem extra_execute_session_request_witness :
    (demo_config.servers 0).extra ≠ [] ∧
    (∃ x ∈ demo_config.users, x.username = (demo_config.servers 0).username) ∧
    ∃ (k : Nat) (u : user), demo_config.users[k]? = some u ∧
      u.username = (demo_config.servers 0).username ∧
      (∀ j, j < k → ∀ v : user, demo_config.users[j]? = some v →
        v.username ≠ (demo_config.servers 0).username) ∧
      (extra_execute (demo_collab 0 (some ⟨some ⟨some demo_row⟩⟩) recv_new 0)
        demo_config 0 0 "l1" demo_backup).trace.filter Event.is_auth =
        [Event.server_authenticate 0 "postgres" u.username u.password false] :=
  ⟨by decide, ⟨⟨"repl", "secret"⟩, by decide, rfl⟩,
    extra_execute_session_request (demo_collab 0 (some ⟨some ⟨some demo_row⟩⟩) recv_new 0)
      demo_config 0 0 "l1" demo_backup (by decide) ⟨⟨"repl", "secret"⟩, by decide, rfl⟩⟩

/-- C6 (the code at the failing input): the capability query returns a response whose
row names another extension.  The response was acquired, the stage returns 1, and the
calls made contain no `pgmoneta_free_query_response`: the `error:` block releases the
destination root, the session and the arena, and leaks the query response. -/
theorem extra_execute_leaks_query_response :
    (run_query (demo_collab 0 (some ⟨some ⟨some demo_row_other⟩⟩) recv_new 0) 0 0
      ⟨"repl", "secret"⟩).1.isSome = true ∧
    (extra_execute (demo_collab 0 (some ⟨some ⟨some demo_row_other⟩⟩) recv_new 0)
      demo_config 0 0 "l1" demo_backup).status = 1 ∧
    (extra_execute (demo_collab 0 (some ⟨some ⟨some demo_row_other⟩⟩) recv_new 0)
      demo_config 0 0 "l1" demo_backup).trace =
      [Event.get_server_extra_identifier 0 "l1", Event.memory_init,
        Event.server_authenticate 0 "postgres" "repl" "secret" false,
        Event.ext_is_installed (some 5) 9,
        Event.free_root (some "/extra/l1"), Event.close_ssl (some 5), Event.disconnect 9,
        Event.memory_destroy] ∧
    Event.free_query_response ∉
      (extra_execute (demo_collab 0 (some ⟨some ⟨some demo_row_other⟩⟩) recv_new 0)
        demo_config 0 0 "l1" demo_backup).trace := by
  decide

/-- C10: for an elapsed duration `e` (a finite `double`), non-negative and with whole
part below 2^31, the diagnostic string is `H:M:S` with H = floor(e) div 3600 printed in
decimal and padded with zeros to at least two digits, M = (floor(e) mod 3600) div 60
printed with exactly two digits, 0 ≤ M ≤ 59, and S = (floor(e) mod 60) + (e - floor(e))
(computed without rounding error) printed as integer part, point and exactly four
decimals (the nearest multiple of 0.0001), where 3600 H + 60 M + S = e and 0 ≤ S < 60.
For e = 3723.4567, that is the `double` nearest to it, the string is "01:02:3.4567". -/
theorem elapsed_string_format (e : ℚ) (hd : is_binary64 e) (h0 : 0 ≤ e)
    (h1 : ⌊e⌋ < 2 ^ 31) :
    (∃ (H M : ℕ) (S : ℚ),
      H = ⌊e⌋.toNat / 3600 ∧ M = ⌊e⌋.toNat % 3600 / 60 ∧
      S = ((⌊e⌋.toNat % 60 : ℕ) : ℚ) + (e - (⌊e⌋ : ℚ)) ∧
      elapsed_parts e = some ((H : Int), (M : Int), S) ∧
      elapsed_string e = some (fmt_02i H ++ ':' :: (fmt_02i M ++ ':' :: fmt_4f S)) ∧
      M ≤ 59 ∧ 0 ≤ S ∧ S < 60 ∧ 3600 * (H : ℚ) + 60 * (M : ℚ) + S = e ∧
      fmt_02i H =
        List.replicate (2 - (Nat.toDigits 10 H).length) '0' ++ Nat.toDigits 10 H ∧
      2 ≤ (fmt_02i H).length ∧
      fmt_02i M =
        List.replicate (2 - (Nat.toDigits 10 M).length) '0' ++ Nat.toDigits 10 M ∧
      (fmt_02i M).length = 2 ∧
      ∃ (N : ℕ) (fp : List Char),
        |(N : ℚ) - S * 10000| ≤ 1 / 2 ∧
        fmt_4f S = Nat.toDigits 10 (N / 10000) ++ '.' :: fp ∧ fp.length = 4 ∧
        fp = List.replicate (4 - (Nat.toDigits 10 (N % 10000)).length) '0' ++
          Nat.toDigits 10 (N % 10000)) ∧
    binary64_round (37234567 / 10000) = 8187967874340907 / 2199023255552 ∧
    elapsed_string (8187967874340907 / 2199023255552) = some "01:02:3.4567".toList := by
  refine ⟨?_, binary64_round_example, elapsed_string_binary64_example⟩
  have hp := elapsed_parts_eq e hd h0 h1
  have hf : 0 ≤ ⌊e⌋ := Int.floor_nonneg.2 h0
  have hn : ((⌊e⌋.toNat : ℕ) : ℚ) = (⌊e⌋ : ℚ) := by
    have := Int.toNat_of_nonneg hf
    exact_mod_cast congrArg (fun z : Int => (z : ℚ)) this
  have hle := Int.floor_le e
  have hlt := Int.lt_floor_add_one e
  have hM : ⌊e⌋.toNat % 3600 / 60 ≤ 59 := by omega
  have hS0 : (0 : ℚ) ≤ ((⌊e⌋.toNat % 60 : ℕ) : ℚ) + (e - (⌊e⌋ : ℚ)) := by
    have : (0 : ℚ) ≤ ((⌊e⌋.toNat % 60 : ℕ) : ℚ) := Nat.cast_nonneg _
    linarith
  have hS1 : ((⌊e⌋.toNat % 60 : ℕ) : ℚ) + (e - (⌊e⌋ : ℚ)) < 60 := by
    have h59 : ⌊e⌋.toNat % 60 ≤ 59 := by omega
    have : ((⌊e⌋.toNat % 60 : ℕ) : ℚ) ≤ 59 := by exact_mod_cast h59
    linarith
  have hsum : 3600 * ((⌊e⌋.toNat / 3600 : ℕ) : ℚ) + 60 * ((⌊e⌋.toNat % 3600 / 60 : ℕ) : ℚ) +
      (((⌊e⌋.toNat % 60 : ℕ) : ℚ) + (e - (⌊e⌋ : ℚ))) = e := by
    have hnat : 3600 * (⌊e⌋.toNat / 3600) + 60 * (⌊e⌋.toNat % 3600 / 60) +
        ⌊e⌋.toNat % 60 = ⌊e⌋.toNat := by omega
    have hq : (3600 : ℚ) * ((⌊e⌋.toNat / 3600 : ℕ) : ℚ) +
        60 * ((⌊e⌋.toNat % 3600 / 60 : ℕ) : ℚ) + ((⌊e⌋.toNat % 60 : ℕ) : ℚ) =
        ((⌊e⌋.toNat : ℕ) : ℚ) := by exact_mod_cast hnat
    linarith
  refine ⟨⌊e⌋.toNat / 3600, ⌊e⌋.toNat % 3600 / 60,
    ((⌊e⌋.toNat % 60 : ℕ) : ℚ) + (e - (⌊e⌋ : ℚ)), rfl, rfl, rfl, hp, ?_, hM, hS0, hS1, hsum,
    fmt_02i_natCast _, ?_, fmt_02i_natCast _, ?_, ?_⟩
  · unfold elapsed_string
    rw [hp]
  · rw [fmt_02i_natCast, List.length_append, List.length_replicate]
    omega
  · have hl := toDigits_length_le (⌊e⌋.toNat % 3600 / 60) 2 (by omega) (by decide)
    have hpos := toDigits_length_pos (⌊e⌋.toNat % 3600 / 60)
    rw [fmt_02i_natCast, List.length_append, List.length_replicate]
    omega
  · refine ⟨round_half_even
      (|((⌊e⌋.toNat % 60 : ℕ) : ℚ) + (e - (⌊e⌋ : ℚ))| * 10000), _, ?_, ?_, ?_, rfl⟩
    · rw [abs_of_nonneg hS0]
      exact round_half_even_error _ (by linarith)
    · unfold fmt_4f
      rw [if_neg (by linarith)]
      rfl
    · have hl := toDigits_length_le
        (round_half_even (|((⌊e⌋.toNat % 60 : ℕ) : ℚ) + (e - (⌊e⌋ : ℚ))| * 10000) % 10000) 4
        (Nat.mod_lt _ (by decide)) (by decide)
      rw [List.length_append, List.length_replicate]
      omega

/-- Witness for C10: the `double` nearest to 3723.4567 seconds. -/
theorem elapsed_string_format_witness :
    is_binary64 (8187967874340907 / 2199023255552) ∧
    (0 : ℚ) ≤ 8187967874340907 / 2199023255552 ∧
    ⌊(8187967874340907 / 2199023255552 : ℚ)⌋ < 2 ^ 31 ∧
    elapsed_string (8187967874340907 / 2199023255552) = some "01:02:3.4567".toList :=
  ⟨⟨8187967874340907, -41, by norm_num, by norm_num, by norm_num, by
      rw [zpow_neg]; norm_num⟩,
    by norm_num, by norm_num,
    (elapsed_string_format (8187967874340907 / 2199023255552)
      ⟨8187967874340907, -41, by norm_num, by norm_num, by norm_num, by
        rw [zpow_neg]; norm_num⟩
      (by norm_num) (by norm_num)).2.2⟩

end Pgmoneta
